import Mathlib

/-!
Verification of the JetPesa crash-game round scheduler (src/server.js).

The game loop (first server variant, lines 53-362 of server.js) is embedded
shallowly: JS numbers are modelled as rationals (exact decimal literals), the
mutable globals (game, crashQueue, history, clients) become one explicit
ServerState record, `crypto.randomUUID()` becomes a fresh-id counter, and the
cryptographically random output stream of `generateCrashPoint` becomes an
arbitrary supply function `ℕ → ℚ` with an advancing index.  The floating-point
multiplier curve `getMultiplierAtTime` is modelled over the reals; inside the
tick handler, where only comparisons with the crash target matter, the curve
is abstracted as a parameter `curve : ℤ → ℚ` (elapsed milliseconds to
multiplier).  The second server variant's replay-pool generator (CRASH_POOL,
lines 1393-1418) is embedded as `poolNextCrashPoint`.
-/

/-- Round phase, the `status` field of the JS `game` object
('waiting' | 'flying' | 'crashed'). -/
inductive GStatus
  | waiting
  | flying
  | crashed
deriving DecidableEq

/-- Lowercase phase name exactly as stored in `game.status`. -/
def statusStr : GStatus → String
  | .waiting => "waiting"
  | .flying => "flying"
  | .crashed => "crashed"

/-- `game.status.toUpperCase()`: the uppercase image of the phase name
(`String.toUpperCase` applied to the stored lowercase name). -/
def statusUpper : GStatus → String
  | .waiting => "WAITING"
  | .flying => "FLYING"
  | .crashed => "CRASHED"

/-- An entry of the pre-generated crash queue: `{id, multiplier}`
(ids model `crypto.randomUUID()`). -/
structure QEntry where
  id : ℕ
  multiplier : ℚ
deriving DecidableEq

/-- A history-ring entry `{id, multiplier, timestamp}` (presentation fields
`hash`/`server_seed` omitted). -/
structure HistEntry where
  id : ℕ
  multiplier : ℚ
  timestamp : ℤ
deriving DecidableEq

/-- The `game` global: the single mutable round record. -/
structure Game where
  roundId : ℕ
  status : GStatus
  multiplier : ℚ
  startTime : Option ℤ
  crashPoint : ℚ
  nextEventTime : Option ℤ
deriving DecidableEq

/-- Broadcast events (`broadcast(event, data)` payloads, field for field). -/
inductive Event
  | roundStart (roundId : ℕ) (nextEventTime : ℤ) (predeterminedTarget : ℚ)
      (queueSnapshot : List QEntry) (algorithmKey : String)
  | fly (roundId : ℕ) (startTime : ℤ) (target : ℚ) (algorithmKey : String)
  | tick (roundId : ℕ) (multiplier : ℚ) (elapsed : ℤ) (target : ℚ) (timestamp : ℤ)
  | crash (roundId : ℕ) (multiplier : ℚ) (nextEventTime : ℤ)
  | heartbeat (status : String) (nextEventTime : Option ℤ)
deriving DecidableEq

/-- The whole mutable server state: `game`, `crashQueue`, `history`, the SSE
client set, plus the modelled random supply (`generateCrashPoint` stream) and
fresh-id counter (`crypto.randomUUID`). -/
structure ServerState where
  game : Game
  crashQueue : List QEntry
  history : List HistEntry
  clients : List ℕ
  supply : ℕ → ℚ
  supplyIdx : ℕ
  freshId : ℕ

/-- `const QUEUE_SIZE = 10` -/
def QUEUE_SIZE : ℕ := 10

/-- `const WAIT_MS = 8000` -/
def WAIT_MS : ℤ := 8000

/-- `const CRASH_PAUSE = 5000` -/
def CRASH_PAUSE : ℤ := 5000

/-- `const TICK_MS = 100` -/
def TICK_MS : ℤ := 100

/-- `const ALGORITHM = 'greedy_1.05'` -/
def ALGORITHM : String := "greedy_1.05"

/-- `function fillQueue()`: while the queue has fewer than QUEUE_SIZE entries,
push a freshly generated `{id, multiplier}` entry. -/
def fillQueue (s : ServerState) : ServerState :=
  if s.crashQueue.length < QUEUE_SIZE then
    fillQueue { s with
      crashQueue := s.crashQueue ++ [⟨s.freshId, s.supply s.supplyIdx⟩],
      supplyIdx := s.supplyIdx + 1,
      freshId := s.freshId + 1 }
  else s
termination_by QUEUE_SIZE - s.crashQueue.length
decreasing_by simp [List.length_append]; omega

/-- `function nextCrashPoint()`: fill if empty, shift the front entry, refill,
return its multiplier.  The `[]` branch is unreachable (fillQueue leaves at
least QUEUE_SIZE entries); the JS code would throw there, so it returns none. -/
def nextCrashPoint (s : ServerState) : Option ℚ × ServerState :=
  let s1 := if s.crashQueue.length = 0 then fillQueue s else s
  match s1.crashQueue with
  | [] => (none, s1)
  | e :: rest => (some e.multiplier, fillQueue { s1 with crashQueue := rest })

/-- `function peekQueue(count = 5)`: refill, then return the first `count`
entries without removing them (the JS decorates each entry with presentation
fields `status`, `created_at`, `domain_id`, `server_seed`, `hash`; the data
content is the `{id, multiplier}` pair modelled here). -/
def peekQueue (s : ServerState) (count : ℕ) : List QEntry × ServerState :=
  let s1 := fillQueue s
  (s1.crashQueue.take count, s1)

/-- The `body.pool.forEach(x => crashQueue.push({id, multiplier: parseFloat(x)}))`
loop of the crash-pool admin endpoint, with fresh ids from the counter. -/
def injectEntries (vals : List ℚ) (fid : ℕ) : List QEntry :=
  match vals with
  | [] => []
  | v :: vs => ⟨fid, v⟩ :: injectEntries vs (fid + 1)

/-- Queue injection (`/api/admin/crash-pool` body of the success branch):
`crashQueue.length = 0`, push all pool values, then `fillQueue()`. -/
def injectQueue (s : ServerState) (pool : List ℚ) : ServerState :=
  fillQueue { s with
    crashQueue := injectEntries pool s.freshId,
    freshId := s.freshId + pool.length }

/-- `function doCrash(roundId, finalMult)`: set status 'crashed', store the
final multiplier, schedule the next event, unshift a history entry (popping
the tail when the ring exceeds 20), and broadcast the `crash` event. -/
def doCrash (st : ServerState) (roundId : ℕ) (finalMult : ℚ) (now : ℤ) :
    ServerState × List Event :=
  let nextTime := now + CRASH_PAUSE
  let entry : HistEntry := ⟨roundId, finalMult, now⟩
  let h1 := entry :: st.history
  let h2 := if 20 < h1.length then h1.dropLast else h1
  ({ st with
      game := { st.game with
        status := .crashed, multiplier := finalMult, nextEventTime := some nextTime },
      history := h2 },
   [Event.crash roundId finalMult nextTime])

/-- `function startWaiting()`: draw the next crash point from the queue,
replace `game` wholesale with a fresh WAITING round, broadcast `round_start`
(with a `peekQueue()` snapshot, default count 5) and a WAITING heartbeat.
Returns none only in the unreachable case where the queue yields nothing
(the JS would throw). -/
def startWaiting (st : ServerState) (now : ℤ) : Option (ServerState × List Event) :=
  match nextCrashPoint st with
  | (none, _) => none
  | (some cp, st1) =>
    let rid := st1.freshId
    let nextTime := now + WAIT_MS
    let st2 : ServerState := { st1 with freshId := st1.freshId + 1 }
    let pk := peekQueue st2 5
    let game2 : Game :=
      { roundId := rid, status := .waiting, multiplier := 1,
        startTime := none, crashPoint := cp, nextEventTime := some nextTime }
    some ({ pk.2 with game := game2 },
      [Event.roundStart rid nextTime cp pk.1 ALGORITHM,
       Event.heartbeat "WAITING" (some nextTime)])

/-- The values the tick-interval closure registered by `startFlying` captures:
`roundId`, `startTime` and `crashPoint` at registration time. -/
structure TimerCapture where
  roundId : ℕ
  startTime : ℤ
  crashPoint : ℚ
deriving DecidableEq

/-- `function startFlying()`: flip the round to FLYING, reset the multiplier
to 1, clear `nextEventTime`, broadcast `fly`, and register the tick interval
capturing the current round id, start time and crash point. -/
def startFlying (st : ServerState) (now : ℤ) :
    ServerState × List Event × TimerCapture :=
  ({ st with game := { st.game with
      status := .flying, startTime := some now, multiplier := 1,
      nextEventTime := none } },
   [Event.fly st.game.roundId now st.game.crashPoint ALGORITHM],
   ⟨st.game.roundId, now, st.game.crashPoint⟩)

/-- One firing of the tick interval registered by `startFlying`.  `curve`
abstracts the floating-point computation
`elapsedMs => getMultiplierAtTime(elapsedMs / 1000)`.  Mirrors the JS body:
stale check (phase no longer 'flying' or round id changed) clears the interval
and does nothing; otherwise store the computed multiplier, broadcast `tick`
with it unmodified, and if it reached the captured crash point clear the
interval and run `doCrash` with `Math.min(mult, crashPoint)`.  The returned
Bool is true when the interval was cleared. -/
def tickStep (st : ServerState) (c : TimerCapture) (curve : ℤ → ℚ) (now : ℤ) :
    ServerState × List Event × Bool :=
  if st.game.status ≠ .flying ∨ st.game.roundId ≠ c.roundId then
    (st, [], true)
  else
    let elapsed := now - c.startTime
    let mult := curve elapsed
    let st1 := { st with game := { st.game with multiplier := mult } }
    let tickEv := Event.tick c.roundId mult elapsed c.crashPoint now
    if c.crashPoint ≤ mult then
      let r := doCrash st1 c.roundId (min mult c.crashPoint) now
      (r.1, tickEv :: r.2, true)
    else
      (st1, [tickEv], false)

/-- Result of the `/api/admin/force-crash` endpoint:
`{ok: true, crashed_at}` or `{ok: false, error}` (status 400). -/
inductive ForceResp
  | ok (crashedAt : ℚ)
  | err (msg : String)
deriving DecidableEq

/-- `/api/admin/force-crash` handler body.  `bodyAt` is the parse of
`body.at`: none models a non-numeric value (`parseFloat` gives NaN, falsy),
and a parsed 0 is also falsy, so both fall back to the 1.5 default of
`parseFloat(body.at) || 1.5`.  While 'flying' it crashes the current round at
the chosen value; otherwise it rejects without touching any state. -/
def forceCrashEndpoint (st : ServerState) (bodyAt : Option ℚ) (now : ℤ) :
    ServerState × ForceResp × List Event :=
  let a : ℚ := match bodyAt with
    | none => 1.5
    | some v => if v = 0 then 1.5 else v
  if st.game.status = .flying then
    let r := doCrash st st.game.roundId a now
    (r.1, ForceResp.ok a, r.2)
  else
    (st, ForceResp.err ("Game is not flying (current: " ++ statusStr st.game.status ++ ")"), [])

/-- Result of the `/api/admin/crash-pool` endpoint: `{ok: true, queue}` or
`{ok: false, error}` (status 400). -/
inductive PoolResp
  | ok (queue : List ℚ)
  | err (msg : String)
deriving DecidableEq

/-- `/api/admin/crash-pool` handler body.  `pool` is none when `body.pool` is
not an array (`Array.isArray` fails); valid numeric elements are modelled as
the parsed rationals.  Nonempty arrays clear the queue, inject the values and
refill; anything else is rejected without mutation. -/
def crashPoolEndpoint (st : ServerState) (pool : Option (List ℚ)) :
    ServerState × PoolResp :=
  match pool with
  | some l =>
    if 0 < l.length then
      let st1 := injectQueue st l
      (st1, PoolResp.ok (st1.crashQueue.map QEntry.multiplier))
    else (st, PoolResp.err "Provide \x7b pool: [number, ...] \x7d")
  | none => (st, PoolResp.err "Provide \x7b pool: [number, ...] \x7d")

/-- One row of the `/api/signal` `upcoming` array:
`{position: i + 1, id, multiplier}`. -/
structure SignalRow where
  position : ℕ
  id : ℕ
  multiplier : ℚ
deriving DecidableEq

/-- The `current` object of the `/api/signal` response. -/
structure SignalCurrent where
  roundId : ℕ
  status : GStatus
  crashPoint : ℚ
  multiplier : ℚ
deriving DecidableEq

/-- `/api/signal` response: 403 `{error: 'Invalid signal key'}` on key
mismatch, else the current round plus the whole upcoming queue. -/
inductive SignalResp
  | invalidKey
  | ok (current : SignalCurrent) (upcoming : List SignalRow)
deriving DecidableEq

/-- `/api/signal` handler body: compare `key` with SIGNAL_SECRET (modelled as
the `secret` parameter, a random hex string in the JS); reject before touching
anything on mismatch, else `fillQueue()` and report the full queue with
1-based positions. -/
def signalEndpoint (st : ServerState) (key secret : String) :
    ServerState × SignalResp :=
  if key ≠ secret then (st, SignalResp.invalidKey)
  else
    let st1 := fillQueue st
    (st1, SignalResp.ok
      ⟨st1.game.roundId, st1.game.status, st1.game.crashPoint, st1.game.multiplier⟩
      (st1.crashQueue.enum.map (fun p => ⟨p.1 + 1, p.2.id, p.2.multiplier⟩)))

/-- `/api/stream` handler body: add the response handle to the SSE client set
(a JS Set: adding an existing member is a no-op), then immediately
`sendSSE(res, 'heartbeat', {status: game.status.toUpperCase(), nextEventTime})`
to that one observer.  Returns the messages sent to the new observer. -/
def streamSubscribe (st : ServerState) (obs : ℕ) :
    ServerState × List (ℕ × Event) :=
  let clients1 := if obs ∈ st.clients then st.clients else st.clients ++ [obs]
  ({ st with clients := clients1 },
   [(obs, Event.heartbeat (statusUpper st.game.status) st.game.nextEventTime)])

/-- Decimal rounding to 2 places used by `parseFloat(value.toFixed(2))` and
by `Math.round(100 * x) / 100`, for nonnegative values: half-up at the second
decimal. -/
def roundTo2 (x : ℚ) : ℚ := (Int.floor (100 * x + 1 / 2) : ℚ) / 100

/-- `function generateCrashPoint()` (weighted strategy): `rand` selects the
tier by cumulative thresholds 0.10 / 0.65 / 0.90, `fine` interpolates inside
the tier range, and the result is rounded to 2 decimals.  `rand` and `fine`
model the two uniform draws `crypto.randomBytes(4).readUInt32BE() / 0xFFFFFFFF`. -/
def generateCrashPoint (rand fine : ℚ) : ℚ :=
  let value : ℚ :=
    if rand < 0.10 then 1.01 + fine * 8.99
    else if rand < 0.65 then 20 + fine * 40
    else if rand < 0.90 then 60 + fine * 90
    else 150 + fine * 400
  roundTo2 value

/-- `const CRASH_POOL = [...]` of the second server variant (replay-pool
strategy), all 50 preset multipliers. -/
def CRASH_POOL : List ℚ :=
  [2.31, 1.74, 4.12, 23.75, 2.88, 19.11, 1.52, 25.66, 3.41,
   26.7, 1.98, 25.05, 6.77, 20.91, 2.14, 17.4, 42.93, 3.65,
   24.35, 1.88, 18.5, 5.22, 31.2, 2.07, 27.8, 1.63, 22.1,
   8.14, 35.6, 2.55, 19.9, 3.9, 28.3, 1.77, 15.8, 7.3,
   44.1, 2.2, 21.7, 4.5, 17.8, 1.91, 33.4, 3.1, 26.1,
   2.44, 38.9, 5.8, 24.8, 1.55]

/-- The second variant's `nextCrashPoint`: read
`CRASH_POOL[queueIdx % CRASH_POOL.length]`, advance the index, and return
`parseFloat(cp.toFixed(2))`. -/
def poolNextCrashPoint (queueIdx : ℕ) : ℚ × ℕ :=
  (roundTo2 (CRASH_POOL.getD (queueIdx % CRASH_POOL.length) 0), queueIdx + 1)

/-- `function getMultiplierAtTime(seconds)`:
`Math.round(100 * (1 + 0.0055 * Math.pow(seconds, 2.2))) / 100`, modelled
over the reals (`Math.round x = ⌊x + 0.5⌋`). -/
noncomputable def getMultiplierAtTime (seconds : ℝ) : ℝ :=
  (Int.floor (100 * (1 + 0.0055 * seconds ^ (2.2 : ℝ)) + 1 / 2) : ℝ) / 100

/-- A sample state whose round is FLYING at crash target 1.5, used to
instantiate theorems at concrete inputs. -/
def sampleFlying : ServerState :=
  { game := { roundId := 1, status := .flying, multiplier := 1,
              startTime := some 0, crashPoint := 1.5, nextEventTime := none },
    crashQueue := [], history := [], clients := [],
    supply := fun _ => 2, supplyIdx := 0, freshId := 100 }

/-- A sample state whose round is WAITING, used to instantiate theorems at
concrete inputs. -/
def sampleWaiting : ServerState :=
  { game := { roundId := 1, status := .waiting, multiplier := 1,
              startTime := none, crashPoint := 1.5, nextEventTime := some 8000 },
    crashQueue := [], history := [], clients := [],
    supply := fun _ => 2, supplyIdx := 0, freshId := 100 }

theorem fillQueue_spec (s : ServerState) :
    (fillQueue s).game = s.game ∧ (fillQueue s).history = s.history ∧
    (fillQueue s).clients = s.clients ∧
    QUEUE_SIZE ≤ (fillQueue s).crashQueue.length ∧
    ∃ t, (fillQueue s).crashQueue = s.crashQueue ++ t := by
  induction s using fillQueue.induct with
  | case1 s h ih =>
    rw [fillQueue, if_pos h]
    obtain ⟨hg, hh, hc, hl, t, ht⟩ := ih
    refine ⟨hg, hh, hc, hl, ⟨[⟨s.freshId, s.supply s.supplyIdx⟩] ++ t, ?_⟩⟩
    rw [ht]
    simp
  | case2 s h =>
    rw [fillQueue, if_neg h]
    exact ⟨rfl, rfl, rfl, by omega, ⟨[], by simp⟩⟩

theorem nextCrashPoint_cons (s : ServerState) (e : QEntry) (rest : List QEntry)
    (h : s.crashQueue = e :: rest) :
    nextCrashPoint s = (some e.multiplier, fillQueue { s with crashQueue := rest }) := by
  simp [nextCrashPoint, h]

theorem nextCrashPoint_spec (s : ServerState) :
    (∃ m, (nextCrashPoint s).1 = some m) ∧
    QUEUE_SIZE ≤ (nextCrashPoint s).2.crashQueue.length := by
  by_cases h0 : s.crashQueue.length = 0
  · cases hq : (fillQueue s).crashQueue with
    | nil =>
      exfalso
      have hl := (fillQueue_spec s).2.2.2.1
      rw [hq] at hl
      simp [QUEUE_SIZE] at hl
    | cons e rest =>
      simp only [nextCrashPoint, if_pos h0, hq]
      exact ⟨⟨e.multiplier, rfl⟩, (fillQueue_spec _).2.2.2.1⟩
  · cases hq : s.crashQueue with
    | nil => exact absurd (by rw [hq]; rfl) h0
    | cons e rest =>
      rw [nextCrashPoint_cons s e rest hq]
      exact ⟨⟨e.multiplier, rfl⟩, (fillQueue_spec _).2.2.2.1⟩

/-- Claim C4: after `nextCrashPoint`, `peekQueue`, or crash-pool injection
completes, the crash queue holds at least QUEUE_SIZE = 10 entries, and
`peekQueue` returns the front `min(n, queue length)` entries of the refilled
queue without removing anything (the pre-call queue stays a prefix). -/
theorem queue_min_depth_after_ops (s : ServerState) (n : ℕ) (pool : List ℚ) :
    QUEUE_SIZE ≤ (nextCrashPoint s).2.crashQueue.length ∧
    QUEUE_SIZE ≤ (peekQueue s n).2.crashQueue.length ∧
    QUEUE_SIZE ≤ (injectQueue s pool).crashQueue.length ∧
    (peekQueue s n).1 = (peekQueue s n).2.crashQueue.take n ∧
    (peekQueue s n).1.length = min n (peekQueue s n).2.crashQueue.length ∧
    (∃ t, (peekQueue s n).2.crashQueue = s.crashQueue ++ t) ∧
    QUEUE_SIZE = 10 := by
  refine ⟨(nextCrashPoint_spec s).2, (fillQueue_spec s).2.2.2.1,
    (fillQueue_spec _).2.2.2.1, rfl, ?_, (fillQueue_spec s).2.2.2.2, rfl⟩
  simp [peekQueue]

theorem startWaiting_crashPoint (st : ServerState) (now : ℤ) (cp : ℚ)
    (st1 : ServerState) (h : nextCrashPoint st = (some cp, st1)) :
    ∃ st2 evs, startWaiting st now = some (st2, evs) ∧
      st2.game.crashPoint = cp ∧
      ∃ t, st2.crashQueue = st1.crashQueue ++ t := by
  simp only [startWaiting, h]
  exact ⟨_, _, rfl, rfl, (fillQueue_spec _).2.2.2.2⟩

/-- Claim C5: after injecting `[2.0, 3.0]` into the queue, the next
`nextCrashPoint` call returns 2.0, and the next two rounds started by
`startWaiting` get crash targets 2.0 and then 3.0, in that order, whatever
the refill pads behind them. -/
theorem inject_two_rounds_order (s : ServerState) (now1 now2 : ℤ) :
    (nextCrashPoint (injectQueue s [2.0, 3.0])).1 = some 2.0 ∧
    ∃ st2 evs1 st3 evs2,
      startWaiting (injectQueue s [2.0, 3.0]) now1 = some (st2, evs1) ∧
      st2.game.crashPoint = 2.0 ∧
      startWaiting st2 now2 = some (st3, evs2) ∧
      st3.game.crashPoint = 3.0 := by
  have hq : ∃ t, (injectQueue s [2.0, 3.0]).crashQueue =
      (⟨s.freshId, 2.0⟩ : QEntry) :: (⟨s.freshId + 1, 3.0⟩ : QEntry) :: t := by
    obtain ⟨t, ht⟩ := (fillQueue_spec { s with
      crashQueue := injectEntries [2.0, 3.0] s.freshId,
      freshId := s.freshId + ([2.0, 3.0] : List ℚ).length }).2.2.2.2
    exact ⟨t, by simpa [injectQueue, injectEntries] using ht⟩
  obtain ⟨t1, ht1⟩ := hq
  have h1 := nextCrashPoint_cons _ _ _ ht1
  refine ⟨by rw [h1], ?_⟩
  obtain ⟨st2, evs1, hW1, hcp1, t2, hq2⟩ := startWaiting_crashPoint _ now1 _ _ h1
  obtain ⟨t1', ht1'⟩ := (fillQueue_spec { injectQueue s [2.0, 3.0] with
    crashQueue := (⟨s.freshId + 1, 3.0⟩ : QEntry) :: t1 }).2.2.2.2
  have hq2' : st2.crashQueue = (⟨s.freshId + 1, 3.0⟩ : QEntry) :: (t1 ++ t1' ++ t2) := by
    rw [hq2, ht1']
    simp
  have h2 := nextCrashPoint_cons _ _ _ hq2'
  obtain ⟨st3, evs2, hW2, hcp2, _, _⟩ := startWaiting_crashPoint _ now2 _ _ h2
  exact ⟨st2, evs1, st3, evs2, hW1, hcp1, hW2, hcp2⟩

/-- Claim C1 fails as stated: on the tick whose computed curve value crosses
the crash target (computed 1.51, target 1.5), the emitted `tick` event still
carries the unclamped 1.51, which exceeds the crash target; only the `crash`
event is clamped. -/
theorem tick_event_clamp_counterexample :
    (tickStep sampleFlying ⟨1, 0, 1.5⟩ (fun _ => 1.51) 100).2.1 =
      [Event.tick 1 1.51 100 1.5 100, Event.crash 1 1.5 5100] ∧
    ¬ ((1.51 : ℚ) ≤ (1.5 : ℚ)) := by
  have h15 : ((1.5 : ℚ) ≤ 1.51) := by norm_num
  refine ⟨?_, by norm_num⟩
  simp [tickStep, sampleFlying, doCrash, CRASH_PAUSE, h15, min_eq_right h15]

/-- Claim C1 amended: on a non-stale tick, whenever the phase is still FLYING
after the tick fires the stored multiplier is below the captured crash
target; on the crossing tick the stored multiplier and the `crash` event are
clamped to `min(m(t), crashTarget)`, while the `tick` event emitted on that
same firing carries the unclamped computed value. -/
theorem tick_multiplier_clamp_amended (st : ServerState) (c : TimerCapture)
    (curve : ℤ → ℚ) (now : ℤ)
    (hfly : st.game.status = .flying) (hid : st.game.roundId = c.roundId) :
    ((tickStep st c curve now).1.game.status = .flying →
       (tickStep st c curve now).1.game.multiplier < c.crashPoint) ∧
    (c.crashPoint ≤ curve (now - c.startTime) →
       (tickStep st c curve now).1.game.status = .crashed ∧
       (tickStep st c curve now).1.game.multiplier =
         min (curve (now - c.startTime)) c.crashPoint ∧
       (tickStep st c curve now).2.1 =
         [Event.tick c.roundId (curve (now - c.startTime)) (now - c.startTime)
            c.crashPoint now,
          Event.crash c.roundId (min (curve (now - c.startTime)) c.crashPoint)
            (now + CRASH_PAUSE)]) ∧
    (¬ c.crashPoint ≤ curve (now - c.startTime) →
       (tickStep st c curve now).1.game.status = .flying ∧
       (tickStep st c curve now).1.game.multiplier = curve (now - c.startTime) ∧
       (tickStep st c curve now).2.1 =
         [Event.tick c.roundId (curve (now - c.startTime)) (now - c.startTime)
            c.crashPoint now]) := by
  have hcond : ¬(st.game.status ≠ GStatus.flying ∨ st.game.roundId ≠ c.roundId) := by
    simp [hfly, hid]
  by_cases hc : c.crashPoint ≤ curve (now - c.startTime)
  · refine ⟨?_, fun _ => ?_, fun h => absurd hc h⟩
    · intro hst
      simp only [tickStep, if_neg hcond, if_pos hc, doCrash] at hst
      exact absurd hst (by decide)
    · simp only [tickStep, if_neg hcond, if_pos hc, doCrash]
      simp
  · refine ⟨fun _ => ?_, fun h => absurd h hc, fun _ => ?_⟩
    · simp only [tickStep, if_neg hcond, if_neg hc]
      exact not_le.mp hc
    · simp only [tickStep, if_neg hcond, if_neg hc]
      simp [hfly]

theorem tick_multiplier_clamp_amended_witness :
    ((tickStep sampleFlying ⟨1, 0, 1.5⟩ (fun _ => 1.2) 100).1.game.status = .flying →
       (tickStep sampleFlying ⟨1, 0, 1.5⟩ (fun _ => 1.2) 100).1.game.multiplier < (1.5 : ℚ)) ∧
    ((1.5 : ℚ) ≤ 1.2 →
       (tickStep sampleFlying ⟨1, 0, 1.5⟩ (fun _ => 1.2) 100).1.game.status = .crashed ∧
       (tickStep sampleFlying ⟨1, 0, 1.5⟩ (fun _ => 1.2) 100).1.game.multiplier =
         min (1.2 : ℚ) 1.5 ∧
       (tickStep sampleFlying ⟨1, 0, 1.5⟩ (fun _ => 1.2) 100).2.1 =
         [Event.tick 1 1.2 100 1.5 100, Event.crash 1 (min (1.2 : ℚ) 1.5) 5100]) ∧
    (¬ (1.5 : ℚ) ≤ 1.2 →
       (tickStep sampleFlying ⟨1, 0, 1.5⟩ (fun _ => 1.2) 100).1.game.status = .flying ∧
       (tickStep sampleFlying ⟨1, 0, 1.5⟩ (fun _ => 1.2) 100).1.game.multiplier = 1.2 ∧
       (tickStep sampleFlying ⟨1, 0, 1.5⟩ (fun _ => 1.2) 100).2.1 =
         [Event.tick 1 1.2 100 1.5 100]) :=
  tick_multiplier_clamp_amended sampleFlying ⟨1, 0, 1.5⟩ (fun _ => 1.2) 100 rfl rfl

/-- Claim C9: a tick-interval firing that finds the phase no longer FLYING or
the round id changed mutates nothing, emits nothing, and clears its interval. -/
theorem stale_tick_noop (st : ServerState) (c : TimerCapture) (curve : ℤ → ℚ)
    (now : ℤ) (h : st.game.status ≠ .flying ∨ st.game.roundId ≠ c.roundId) :
    tickStep st c curve now = (st, [], true) := by
  simp only [tickStep, if_pos h]

theorem stale_tick_noop_witness :
    tickStep sampleWaiting ⟨1, 0, 1.5⟩ (fun _ => 2) 0 = (sampleWaiting, [], true) :=
  stale_tick_noop sampleWaiting ⟨1, 0, 1.5⟩ (fun _ => 2) 0 (Or.inl (by decide))

theorem doCrash_history_head (st : ServerState) (roundId : ℕ) (finalMult : ℚ)
    (now : ℤ) :
    (doCrash st roundId finalMult now).1.history.head? =
      some ⟨roundId, finalMult, now⟩ := by
  simp only [doCrash]
  split
  · rename_i hlen
    cases hh : st.history with
    | nil => rw [hh] at hlen; simp at hlen
    | cons b l => simp
  · simp

/-- Claim C3 amended: a forced crash with a nonzero numeric value X while
FLYING emits a `crash` event with multiplier X and prepends a history entry
with X; while WAITING or CRASHED any forced crash is rejected with an error,
leaving the whole state (round and history included) untouched.  (A parsed
value of exactly 0 is falsy in JS and falls back to the default 1.5, which is
what the counterexample exhibits.) -/
theorem forceCrash_flying_amended (st : ServerState) (x : ℚ) (b : Option ℚ)
    (now : ℤ) :
    (x ≠ 0 → st.game.status = .flying →
       (forceCrashEndpoint st (some x) now).2.1 = ForceResp.ok x ∧
       (forceCrashEndpoint st (some x) now).2.2 =
         [Event.crash st.game.roundId x (now + CRASH_PAUSE)] ∧
       (forceCrashEndpoint st (some x) now).1.game.status = .crashed ∧
       (forceCrashEndpoint st (some x) now).1.game.multiplier = x ∧
       (forceCrashEndpoint st (some x) now).1.history.head? =
         some ⟨st.game.roundId, x, now⟩) ∧
    (st.game.status ≠ .flying →
       forceCrashEndpoint st b now =
         (st,
          ForceResp.err
            ("Game is not flying (current: " ++ statusStr st.game.status ++ ")"),
          [])) := by
  constructor
  · intro hx hfly
    simp only [forceCrashEndpoint, if_neg hx, if_pos hfly]
    refine ⟨?_, ?_, ?_, ?_, ?_⟩ <;>
      first
      | trivial
      | exact doCrash_history_head _ _ _ _
  · intro hnf
    simp only [forceCrashEndpoint, if_neg hnf]

theorem forceCrash_flying_amended_witness :
    ((forceCrashEndpoint sampleFlying (some 2) 0).2.1 = ForceResp.ok 2) ∧
    forceCrashEndpoint sampleWaiting (some 2) 0 =
      (sampleWaiting,
       ForceResp.err
         ("Game is not flying (current: " ++ statusStr sampleWaiting.game.status ++ ")"),
       []) :=
  ⟨((forceCrash_flying_amended sampleFlying 2 (some 2) 0).1 (by norm_num) rfl).1,
   (forceCrash_flying_amended sampleWaiting 2 (some 2) 0).2 (by decide)⟩

/-- Claim C3 fails as universally stated: a forced crash "with value 0" while
FLYING does not crash at 0 — the JS default `parseFloat(body.at) || 1.5`
treats 0 as missing, so the round crashes at 1.5 instead. -/
theorem forceCrash_zero_counterexample :
    (forceCrashEndpoint sampleFlying (some 0) 0).2.1 = ForceResp.ok 1.5 ∧
    (forceCrashEndpoint sampleFlying (some 0) 0).1.game.multiplier = 1.5 ∧
    (1.5 : ℚ) ≠ 0 := by
  refine ⟨?_, ?_, by norm_num⟩ <;>
    simp [forceCrashEndpoint, sampleFlying, doCrash]

/-- Claim C7 fails for the forced-crash half: a force-crash call whose
override value is non-numeric is NOT rejected while the round is FLYING —
the NaN is falsy, defaults to 1.5, and the round is crashed (ok response,
state mutated). -/
theorem admin_invalid_input_counterexample :
    (forceCrashEndpoint sampleFlying none 0).2.1 = ForceResp.ok 1.5 ∧
    (forceCrashEndpoint sampleFlying none 0).1.game.status = GStatus.crashed ∧
    sampleFlying.game.status = GStatus.flying := by
  refine ⟨?_, ?_, rfl⟩ <;> simp [forceCrashEndpoint, sampleFlying, doCrash]

/-- Claim C7 amended: an inject call whose pool is empty or not an array is
rejected with a descriptive error and mutates nothing; a forced-crash call
with a non-numeric override is rejected (state untouched) only when the
round is not FLYING — while FLYING the override defaults to 1.5 and the
crash proceeds with an ok response. -/
theorem admin_invalid_input_amended (st : ServerState) (now : ℤ) :
    ((crashPoolEndpoint st none).1 = st ∧
     (crashPoolEndpoint st none).2 =
       PoolResp.err "Provide \x7b pool: [number, ...] \x7d") ∧
    ((crashPoolEndpoint st (some [])).1 = st ∧
     (crashPoolEndpoint st (some [])).2 =
       PoolResp.err "Provide \x7b pool: [number, ...] \x7d") ∧
    (st.game.status ≠ .flying →
       forceCrashEndpoint st none now =
         (st,
          ForceResp.err
            ("Game is not flying (current: " ++ statusStr st.game.status ++ ")"),
          [])) ∧
    (st.game.status = .flying →
       (forceCrashEndpoint st none now).2.1 = ForceResp.ok 1.5) := by
  refine ⟨⟨rfl, rfl⟩, ⟨rfl, rfl⟩, ?_, ?_⟩
  · intro h
    simp only [forceCrashEndpoint, if_neg h]
  · intro h
    simp only [forceCrashEndpoint, if_pos h]

theorem admin_invalid_input_amended_witness :
    (crashPoolEndpoint sampleWaiting none).1 = sampleWaiting ∧
    forceCrashEndpoint sampleWaiting none 0 =
      (sampleWaiting,
       ForceResp.err
         ("Game is not flying (current: " ++ statusStr sampleWaiting.game.status ++ ")"),
       []) ∧
    (forceCrashEndpoint sampleFlying none 0).2.1 = ForceResp.ok 1.5 :=
  ⟨(admin_invalid_input_amended sampleWaiting 0).1.1,
   (admin_invalid_input_amended sampleWaiting 0).2.2.1 (by decide),
   (admin_invalid_input_amended sampleFlying 0).2.2.2 rfl⟩

theorem roundTo2_one_lt (x : ℚ) (h : 101 / 100 ≤ x) : 1 < roundTo2 x := by
  have h1 : (101 : ℤ) ≤ Int.floor (100 * x + 1 / 2) := by
    rw [Int.le_floor]
    push_cast
    linarith
  unfold roundTo2
  rw [lt_div_iff₀ (by norm_num : (0 : ℚ) < 100)]
  have h2 : (101 : ℚ) ≤ (Int.floor (100 * x + 1 / 2) : ℚ) := by exact_mod_cast h1
  linarith

/-- Claim C6: every outcome of the weighted generator (any pair of uniform
draws in [0,1)) is strictly greater than 1.0, and so is every value the
replay-pool variant serves from CRASH_POOL, at every index of its cyclic
consumption. -/
theorem outcomes_gt_one :
    (∀ rand fine : ℚ, 0 ≤ rand → rand < 1 → 0 ≤ fine → fine < 1 →
       1 < generateCrashPoint rand fine) ∧
    (∀ i : ℕ, 1 < (poolNextCrashPoint i).1) := by
  constructor
  · intro rand fine _ _ hf _
    unfold generateCrashPoint
    have h899 : (0 : ℚ) ≤ fine * 8.99 := mul_nonneg hf (by norm_num)
    have h40 : (0 : ℚ) ≤ fine * 40 := mul_nonneg hf (by norm_num)
    have h90 : (0 : ℚ) ≤ fine * 90 := mul_nonneg hf (by norm_num)
    have h400 : (0 : ℚ) ≤ fine * 400 := mul_nonneg hf (by norm_num)
    split_ifs
    · exact roundTo2_one_lt _ (by nlinarith)
    · exact roundTo2_one_lt _ (by nlinarith)
    · exact roundTo2_one_lt _ (by nlinarith)
    · exact roundTo2_one_lt _ (by nlinarith)
  · intro i
    have hlen : CRASH_POOL.length = 50 := by simp [CRASH_POOL]
    have hlt : i % CRASH_POOL.length < CRASH_POOL.length := Nat.mod_lt _ (by omega)
    unfold poolNextCrashPoint
    rw [List.getD_eq_getElem _ _ hlt]
    have hall : ∀ x ∈ CRASH_POOL, (101 / 100 : ℚ) ≤ x := by norm_num [CRASH_POOL]
    exact roundTo2_one_lt _ (hall _ (List.getElem_mem hlt))

theorem outcomes_gt_one_witness :
    1 < generateCrashPoint 0 0 ∧ 1 < (poolNextCrashPoint 0).1 :=
  ⟨outcomes_gt_one.1 0 0 le_rfl (by norm_num) le_rfl (by norm_num),
   outcomes_gt_one.2 0⟩

/-- Claim C8: the privileged queue read rejects with an authorization error
and mutates nothing whenever the supplied key differs from the secret; on a
match it reports the upcoming outcomes with 1-based positions, read from the
same refilled queue state whose front `peekQueue` returns. -/
theorem signal_auth_peek (st : ServerState) (key secret : String) (n : ℕ) :
    (key ≠ secret → signalEndpoint st key secret = (st, SignalResp.invalidKey)) ∧
    (key = secret → ∃ cur rows,
       (signalEndpoint st key secret).2 = SignalResp.ok cur rows ∧
       rows.map SignalRow.position =
         (List.range (signalEndpoint st key secret).1.crashQueue.length).map
           (fun i => i + 1) ∧
       rows.map SignalRow.multiplier =
         (signalEndpoint st key secret).1.crashQueue.map QEntry.multiplier ∧
       (peekQueue st n).1 = (signalEndpoint st key secret).1.crashQueue.take n) := by
  constructor
  · intro h
    simp only [signalEndpoint, if_pos h]
  · intro h
    have hkk : ¬ key ≠ secret := by simp [h]
    simp only [signalEndpoint, if_neg hkk]
    refine ⟨_, _, rfl, ?_, ?_, rfl⟩
    · rw [List.map_map,
        show (SignalRow.position ∘ fun p : ℕ × QEntry =>
          (⟨p.1 + 1, p.2.id, p.2.multiplier⟩ : SignalRow)) =
          ((fun i => i + 1) ∘ Prod.fst) from rfl,
        ← List.map_map, List.enum_map_fst]
    · rw [List.map_map,
        show (SignalRow.multiplier ∘ fun p : ℕ × QEntry =>
          (⟨p.1 + 1, p.2.id, p.2.multiplier⟩ : SignalRow)) =
          (QEntry.multiplier ∘ Prod.snd) from rfl,
        ← List.map_map, List.enum_map_snd]

theorem signal_auth_peek_witness :
    signalEndpoint sampleWaiting "wrong" "secret" =
      (sampleWaiting, SignalResp.invalidKey) :=
  (signal_auth_peek sampleWaiting "wrong" "secret" 5).1 (by decide)

/-- Claim C10: subscribing to the SSE stream sends the new observer exactly
one heartbeat carrying the uppercased current phase name and the current
nextEventTime, and mutates neither the round, nor the queue, nor the history
(the observer is only added to the client set). -/
theorem stream_subscribe_heartbeat (st : ServerState) (obs : ℕ) :
    (streamSubscribe st obs).2 =
      [(obs, Event.heartbeat (statusUpper st.game.status) st.game.nextEventTime)] ∧
    (streamSubscribe st obs).1.game = st.game ∧
    (streamSubscribe st obs).1.crashQueue = st.crashQueue ∧
    (streamSubscribe st obs).1.history = st.history ∧
    obs ∈ (streamSubscribe st obs).1.clients ∧
    statusUpper .waiting = "WAITING" ∧ statusStr .waiting = "waiting" ∧
    statusUpper .flying = "FLYING" ∧ statusStr .flying = "flying" ∧
    statusUpper .crashed = "CRASHED" ∧ statusStr .crashed = "crashed" := by
  refine ⟨rfl, rfl, rfl, rfl, ?_, rfl, rfl, rfl, rfl, rfl, rfl⟩
  by_cases hmem : obs ∈ st.clients
  · simp [streamSubscribe, hmem]
  · simp [streamSubscribe, hmem]

/-- Claim C2: the multiplier curve is the stated pure function of elapsed
time — for every t it equals `round(100 * (1 + 0.0055 * t ^ 2.2)) / 100`
(with `Math.round x = ⌊x + 0.5⌋`), repeated evaluation at the same t yields
the identical value, and in particular m(5.0) = 1.19 (the rounding of
100 * (1 + 0.0055 * 5 ^ 2.2) = 118.97... to 119, divided by 100). -/
theorem curve_deterministic_formula :
    (∀ t : ℝ, getMultiplierAtTime t =
       (Int.floor (100 * (1 + 0.0055 * t ^ (2.2 : ℝ)) + 1 / 2) : ℝ) / 100) ∧
    (∀ t : ℝ, getMultiplierAtTime t = getMultiplierAtTime t) ∧
    getMultiplierAtTime 5 = 119 / 100 := by
  refine ⟨fun t => rfl, fun t => rfl, ?_⟩
  have hx0 : (0 : ℝ) ≤ (5 : ℝ) ^ (2.2 : ℝ) := Real.rpow_nonneg (by norm_num) _
  have hx5 : ((5 : ℝ) ^ (2.2 : ℝ)) ^ (5 : ℕ) = 48828125 := by
    rw [← Real.rpow_natCast ((5 : ℝ) ^ (2.2 : ℝ)) 5,
      ← Real.rpow_mul (by norm_num : (0 : ℝ) ≤ 5)]
    have h11 : (2.2 : ℝ) * (5 : ℕ) = ((11 : ℕ) : ℝ) := by norm_num
    rw [h11, Real.rpow_natCast]
    norm_num
  have hlo : (33.7 : ℝ) < (5 : ℝ) ^ (2.2 : ℝ) := by
    by_contra hcon
    push_neg at hcon
    have h5 : ((5 : ℝ) ^ (2.2 : ℝ)) ^ (5 : ℕ) ≤ (33.7 : ℝ) ^ (5 : ℕ) :=
      pow_le_pow_left₀ hx0 hcon 5
    rw [hx5] at h5
    norm_num at h5
  have hhi : (5 : ℝ) ^ (2.2 : ℝ) < 35.4 := by
    by_contra hcon
    push_neg at hcon
    have h5 : (35.4 : ℝ) ^ (5 : ℕ) ≤ ((5 : ℝ) ^ (2.2 : ℝ)) ^ (5 : ℕ) :=
      pow_le_pow_left₀ (by norm_num) hcon 5
    rw [hx5] at h5
    norm_num at h5
  have hfloor :
      Int.floor (100 * (1 + 0.0055 * (5 : ℝ) ^ (2.2 : ℝ)) + 1 / 2) = (119 : ℤ) := by
    rw [Int.floor_eq_iff]
    constructor
    · push_cast
      nlinarith
    · push_cast
      nlinarith
  unfold getMultiplierAtTime
  rw [hfloor]
  norm_num
